import Mathlib

/-!
# Dividend-stock consistency dashboard: verified embedding

A shallow embedding of the per-symbol dividend analysis implemented in
`dashboard.py` (`load_data`).  For each symbol the code

1. reads a CSV of raw dividend rows (an "Ex-Dividend Date" string column and
   an "Amount" column),
2. parses the dates with the fixed format `%m/%d/%Y`, coercing failures to
   `NaT` (modelled as `none`),
3. sorts by date descending (`NaT` last),
4. renders a markdown tooltip of the rows whose year is `>= current_year - 10`,
5. computes a "Yearly Dividend" consistency score over the rows whose year is
   `>= current_year - 5`: take the distinct years sorted ascending, require at
   least 3 of them, drop the first and the last, count the events of each
   remaining year, and report the count exactly when it is the same for every
   remaining year, reporting the sentinel `"-"` (here `none`) otherwise.

Everything below is translated directly from `dashboard.py`; years are `Int`
so that expressions such as `current_year - 10` never truncate.
-/

namespace Dividend

/-- A calendar date, the parse result of an `Ex-Dividend Date` cell. -/
structure Date where
  year : Nat
  month : Nat
  day : Nat
deriving DecidableEq, Repr

/-- Sorting/grouping key of a date: lexicographic on (year, month, day),
encoded as `year*10000 + month*100 + day` (valid because `month ≤ 12` and
`day ≤ 31`). -/
def dateKey (d : Date) : Nat :=
  d.year * 10000 + d.month * 100 + d.day

/-- Number of days of a month, with the Gregorian leap rule, as validated by
`pandas.to_datetime` with an explicit format. -/
def daysInMonth (y m : Nat) : Nat :=
  if m = 2 then
    if y % 4 = 0 ∧ (y % 100 ≠ 0 ∨ y % 400 = 0) then 29 else 28
  else if m = 4 ∨ m = 6 ∨ m = 9 ∨ m = 11 then 30
  else 31

/-- Split a character list at every `/` (the literal separators of the
`%m/%d/%Y` format), keeping empty components. -/
def splitOnSlash : List Char → List (List Char)
  | [] => [[]]
  | c :: cs =>
    if c = '/' then [] :: splitOnSlash cs
    else
      match splitOnSlash cs with
      | [] => [[c]]
      | g :: gs => (c :: g) :: gs

/-- The value of a decimal digit character, if it is one. -/
def charDigit? (c : Char) : Option Nat :=
  if '0' ≤ c ∧ c ≤ '9' then some (c.toNat - '0'.toNat) else none

/-- The value of a nonempty all-digit character list, else `none`. -/
def digitsVal? (cs : List Char) : Option Nat :=
  if cs.isEmpty then none
  else cs.foldl (fun acc c => acc.bind fun n => (charDigit? c).map fun d => n * 10 + d) (some 0)

/-- `pd.to_datetime(s, format="%m/%d/%Y", errors='coerce')` for one cell:
split on `/`, demand three all-digit components (month and day of one or two
digits, year of up to four digits), a month in `1..12`, a day valid for that
month, and a date inside the representable `pandas.Timestamp` range
(1677-09-22 .. 2262-04-11 for midnight timestamps; out-of-range dates are
coerced to `NaT`).  Any failure yields `none` (`NaT`). -/
def parseMMDDYYYY (s : String) : Option Date :=
  match splitOnSlash s.toList with
  | [ms, ds, ys] =>
    match digitsVal? ms, digitsVal? ds, digitsVal? ys with
    | some m, some d, some y =>
      if 1 ≤ m ∧ m ≤ 12 ∧ 1 ≤ d ∧ d ≤ daysInMonth y m ∧
          ms.length ≤ 2 ∧ ds.length ≤ 2 ∧ ys.length ≤ 4 ∧
          16770922 ≤ dateKey ⟨y, m, d⟩ ∧ dateKey ⟨y, m, d⟩ ≤ 22620411
      then some ⟨y, m, d⟩ else none
    | _, _, _ => none
  | _ => none

/-- One raw CSV row: the `Ex-Dividend Date` cell and the `Amount` cell
(`row.get("Amount", "")` already stringified). -/
structure RawRow where
  exDate : String
  amount : String
deriving DecidableEq, Repr

/-- One normalized dividend event: the row together with its parsed `Date`
column (`none` = `NaT`, a parse failure). -/
structure Event where
  date : Option Date
  exDateRaw : String
  amount : String
deriving DecidableEq, Repr

/-- The year of an event's parsed date, if any (`div_df["Date"].dt.year`;
`NaT` gives `NaN`, which every `>=` comparison rejects). -/
def yearOf (e : Event) : Option Nat :=
  e.date.map Date.year

/-- `div_df["Date"] = pd.to_datetime(div_df["Ex-Dividend Date"], ...)`:
attach the parsed date to every row.  No row is dropped here; unparsable
rows merely carry `none`. -/
def normalize (rows : List RawRow) : List Event :=
  rows.map fun r => { date := parseMMDDYYYY r.exDate, exDateRaw := r.exDate, amount := r.amount }

/-- Sort rank for `sort_values("Date", ascending=False)`: real dates in
descending date order (ascending negated key), `NaT` rows last
(`na_position='last'`). -/
def rank (e : Event) : Int :=
  match e.date with
  | some d => -(dateKey d : Int)
  | none => 1

/-- The relation events are sorted by. -/
def eventLe (a b : Event) : Prop :=
  rank a ≤ rank b

instance : DecidableRel eventLe := fun a b => inferInstanceAs (Decidable (rank a ≤ rank b))

instance : IsTotal Event eventLe := ⟨fun a b => Int.le_total (rank a) (rank b)⟩

instance : IsTrans Event eventLe := ⟨fun _ _ _ h1 h2 => le_trans h1 h2⟩

/-- `div_df = div_df.sort_values("Date", ascending=False)`. -/
def sortEvents (l : List Event) : List Event :=
  List.insertionSort eventLe l

/-- Ascending sorted list of the distinct elements, as produced by
`sorted(series.unique())` (and by `groupby`'s sorted keys). -/
def sortedDedup (l : List Nat) : List Nat :=
  List.insertionSort (· ≤ ·) l.dedup

/-- Membership test of the rendering window:
`div_df["Date"].dt.year >= (current_year - 10)` (false on `NaT`). -/
def inRenderPred (cy : Int) (e : Event) : Bool :=
  match e.date with
  | some d => decide ((d.year : Int) ≥ cy - 10)
  | none => false

/-- Membership test of the evaluation window:
`div_df["Date"].dt.year >= start_year` with `start_year = current_year - 5`
(false on `NaT`). -/
def inEvalPred (cy : Int) (e : Event) : Bool :=
  match e.date with
  | some d => decide ((d.year : Int) ≥ cy - 5)
  | none => false

/-- `tooltip_df = div_df[div_df["Date"].dt.year >= (current_year - 10)]`,
applied to the (already sorted) event list. -/
def tooltipList (evs : List Event) (cy : Int) : List Event :=
  evs.filter (inRenderPred cy)

/-- Zero-pad a number to two digits (`strftime` `%m`, `%d`). -/
def pad2 (n : Nat) : String :=
  if n < 10 then "0" ++ toString n else toString n

/-- Zero-pad a number to four digits (`strftime` `%Y`). -/
def pad4 (n : Nat) : String :=
  if n < 10 then "000" ++ toString n
  else if n < 100 then "00" ++ toString n
  else if n < 1000 then "0" ++ toString n
  else toString n

/-- `row["Date"].strftime("%Y-%m-%d")`. -/
def formatISO (d : Date) : String :=
  pad4 d.year ++ "-" ++ pad2 d.month ++ "-" ++ pad2 d.day

/-- One tooltip body line: `f"| {date_str} | {amount} |\n"`, where `date_str`
falls back to the raw cell when the parsed date is null. -/
def entryLine (e : Event) : String :=
  let dateStr := match e.date with
    | some d => formatISO d
    | none => e.exDateRaw
  "| " ++ dateStr ++ " | " ++ e.amount ++ " |\n"

/-- The constant markdown table header the tooltip string starts from. -/
def tooltipHeader : String :=
  "| Date | Amount |\n|---|---|\n"

/-- The tooltip string: the header followed by one line per row of the
filtered frame. -/
def renderTooltip (rows : List Event) : String :=
  tooltipHeader ++ String.join (rows.map entryLine)

/-- `div_df_period = div_df[div_df["Date"].dt.year >= start_year]`. -/
def evalPeriod (evs : List Event) (cy : Int) : List Event :=
  evs.filter (inEvalPred cy)

/-- `unique_years = sorted(div_df_period["Date"].dt.year.unique())`. -/
def distinctEvalYears (evs : List Event) (cy : Int) : List Nat :=
  sortedDedup ((evalPeriod evs cy).filterMap yearOf)

/-- `years_to_include = unique_years[1:-1]`. -/
def trimmedYears (evs : List Event) (cy : Int) : List Nat :=
  ((distinctEvalYears evs cy).drop 1).dropLast

/-- `div_df_calc = div_df_period[div_df_period["Date"].dt.year.isin(years_to_include)]`. -/
def calcList (evs : List Event) (cy : Int) : List Event :=
  (evalPeriod evs cy).filter fun e =>
    match yearOf e with
    | some y => decide (y ∈ trimmedYears evs cy)
    | none => false

/-- `counts = div_df_calc.groupby(div_df_calc["Date"].dt.year).size()`:
the group keys are the distinct years of `div_df_calc` in ascending order,
and each group's size is the number of rows of that year. -/
def yearCounts (evs : List Event) (cy : Int) : List Nat :=
  (sortedDedup ((calcList evs cy).filterMap yearOf)).map fun y =>
    (calcList evs cy).countP fun e => decide (yearOf e = some y)

/-- Number of evaluation-window events of a given year (the per-year count
the uniformity check is about). -/
def evalCountYear (evs : List Event) (cy : Int) (y : Nat) : Nat :=
  (evalPeriod evs cy).countP fun e => decide (yearOf e = some y)

/-- The "Yearly Dividend" consistency score of one symbol's (normalized)
event list: `none` is the `"-"` sentinel (Indeterminate).  Mirrors the guard
chain of `load_data`: empty 5-year window, then `len(unique_years) < 2`,
then `len(unique_years) < 3`, then `unique_counts = counts.unique()` and the
`len(unique_counts) == 1` uniformity check. -/
def yearlyDividend (evs : List Event) (cy : Int) : Option Nat :=
  if evalPeriod evs cy = [] then none
  else if (distinctEvalYears evs cy).length < 2 then none
  else if (distinctEvalYears evs cy).length < 3 then none
  else
    match (yearCounts evs cy).dedup with
    | [c] => some c
    | _ => none

/-- One symbol's raw CSV as read by `pd.read_csv`: whether the
`"Ex-Dividend Date"` column exists, and the data rows. -/
structure RawTable where
  hasDateCol : Bool
  rows : List RawRow
deriving DecidableEq, Repr

/-- The straight-line per-symbol body (inside the `try`): guard on the empty
frame and the missing date column, then parse, sort, render the tooltip and
compute the score.  Returns the (`Yearly Dividend`, tooltip) cell pair. -/
def processSymbolBody (t : RawTable) (cy : Int) : String × String :=
  if t.rows.isEmpty || !t.hasDateCol then ("-", "")
  else
    let evs := sortEvents (normalize t.rows)
    let tip := renderTooltip (tooltipList evs cy)
    let score := match yearlyDividend evs cy with
      | some n => toString n
      | none => "-"
    (score, tip)

/-- One symbol's input to the batch loop.  `none` models a missing CSV file
(`os.path.exists` false); `some (.error msg)` models a Python exception
raised while reading/processing that symbol's data (the embedded body itself
is total, so the exceptional outcome is carried by the input);
`some (.ok t)` is a successfully read table. -/
def SymbolInput : Type := Option (Except String RawTable)

/-- One iteration of the `for symbol in df["Symbol"]` loop: the missing-file
short-circuit, then the `try/except` that converts any exception into the
`("-", "")` fallback pair. -/
def processSymbol (inp : SymbolInput) (cy : Int) : String × String :=
  match inp with
  | none => ("-", "")
  | some (Except.error _) => ("-", "")
  | some (Except.ok t) => processSymbolBody t cy

/-- The whole batch loop: one output cell pair per symbol, in order. -/
def loadData (inputs : List SymbolInput) (cy : Int) : List (String × String) :=
  inputs.map fun inp => processSymbol inp cy

/-! ## Helper lemmas -/

lemma mem_sortedDedup {a : Nat} {l : List Nat} : a ∈ sortedDedup l ↔ a ∈ l := by
  unfold sortedDedup
  rw [List.mem_insertionSort, List.mem_dedup]

lemma sorted_sortedDedup (l : List Nat) : List.Sorted (· ≤ ·) (sortedDedup l) :=
  List.sorted_insertionSort _ _

lemma nodup_sortedDedup (l : List Nat) : (sortedDedup l).Nodup :=
  ((List.perm_insertionSort _ _).nodup_iff).mpr (List.nodup_dedup l)

lemma sortedDedup_congr_perm {l₁ l₂ : List Nat} (h : l₁.Perm l₂) :
    sortedDedup l₁ = sortedDedup l₂ := by
  refine List.eq_of_perm_of_sorted ?_ (sorted_sortedDedup l₁) (sorted_sortedDedup l₂)
  exact ((List.perm_insertionSort _ _).trans h.dedup).trans
    (List.perm_insertionSort _ _).symm

lemma sortedDedup_eq_of_mem_iff {l₁ l₂ : List Nat} (h : ∀ a, a ∈ l₁ ↔ a ∈ l₂) :
    sortedDedup l₁ = sortedDedup l₂ := by
  refine List.eq_of_perm_of_sorted ?_ (sorted_sortedDedup l₁) (sorted_sortedDedup l₂)
  refine (List.perm_ext_iff_of_nodup (nodup_sortedDedup l₁) (nodup_sortedDedup l₂)).mpr ?_
  intro a
  rw [mem_sortedDedup, mem_sortedDedup]
  exact h a

lemma sortEvents_perm (l : List Event) : (sortEvents l).Perm l :=
  List.perm_insertionSort _ _

lemma evalPeriod_perm {l₁ l₂ : List Event} (h : l₁.Perm l₂) (cy : Int) :
    (evalPeriod l₁ cy).Perm (evalPeriod l₂ cy) :=
  h.filter _

lemma distinctEvalYears_perm {l₁ l₂ : List Event} (h : l₁.Perm l₂) (cy : Int) :
    distinctEvalYears l₁ cy = distinctEvalYears l₂ cy :=
  sortedDedup_congr_perm ((evalPeriod_perm h cy).filterMap _)

lemma trimmedYears_perm {l₁ l₂ : List Event} (h : l₁.Perm l₂) (cy : Int) :
    trimmedYears l₁ cy = trimmedYears l₂ cy := by
  unfold trimmedYears
  rw [distinctEvalYears_perm h cy]

lemma calcList_perm {l₁ l₂ : List Event} (h : l₁.Perm l₂) (cy : Int) :
    (calcList l₁ cy).Perm (calcList l₂ cy) := by
  unfold calcList
  rw [trimmedYears_perm h cy]
  exact (evalPeriod_perm h cy).filter _

lemma yearCounts_perm {l₁ l₂ : List Event} (h : l₁.Perm l₂) (cy : Int) :
    yearCounts l₁ cy = yearCounts l₂ cy := by
  unfold yearCounts
  rw [sortedDedup_congr_perm ((calcList_perm h cy).filterMap yearOf)]
  exact List.map_congr_left fun y _ => (calcList_perm h cy).countP_eq _

lemma yearlyDividend_perm {l₁ l₂ : List Event} (h : l₁.Perm l₂) (cy : Int) :
    yearlyDividend l₁ cy = yearlyDividend l₂ cy := by
  have hnil : evalPeriod l₁ cy = [] ↔ evalPeriod l₂ cy = [] := by
    rw [← List.length_eq_zero, ← List.length_eq_zero, (evalPeriod_perm h cy).length_eq]
  unfold yearlyDividend
  rw [distinctEvalYears_perm h cy, yearCounts_perm h cy]
  by_cases h1 : evalPeriod l₁ cy = []
  · rw [if_pos h1, if_pos (hnil.mp h1)]
  · rw [if_neg h1, if_neg (fun hc => h1 (hnil.mpr hc))]

lemma mem_distinctEvalYears {evs : List Event} {cy : Int} {y : Nat} :
    y ∈ distinctEvalYears evs cy ↔ ∃ e ∈ evalPeriod evs cy, yearOf e = some y := by
  unfold distinctEvalYears
  rw [mem_sortedDedup, List.mem_filterMap]

lemma trimmedYears_sublist (evs : List Event) (cy : Int) :
    (trimmedYears evs cy).Sublist (distinctEvalYears evs cy) :=
  (List.dropLast_sublist _).trans (List.drop_sublist _ _)

lemma trimmedYears_subset {evs : List Event} {cy : Int} :
    trimmedYears evs cy ⊆ distinctEvalYears evs cy :=
  (trimmedYears_sublist evs cy).subset

lemma sorted_trimmedYears (evs : List Event) (cy : Int) :
    List.Sorted (· ≤ ·) (trimmedYears evs cy) :=
  List.Pairwise.sublist (trimmedYears_sublist evs cy) (sorted_sortedDedup _)

lemma nodup_trimmedYears (evs : List Event) (cy : Int) :
    (trimmedYears evs cy).Nodup :=
  (trimmedYears_sublist evs cy).nodup (nodup_sortedDedup _)

lemma mem_calcList {evs : List Event} {cy : Int} {e : Event} :
    e ∈ calcList evs cy ↔
      e ∈ evalPeriod evs cy ∧ ∃ y ∈ trimmedYears evs cy, yearOf e = some y := by
  unfold calcList
  rw [List.mem_filter]
  constructor
  · rintro ⟨hmem, hpred⟩
    refine ⟨hmem, ?_⟩
    cases hy : yearOf e with
    | none => rw [hy] at hpred; exact absurd hpred (by simp)
    | some y =>
      rw [hy] at hpred
      exact ⟨y, by simpa using hpred, rfl⟩
  · rintro ⟨hmem, y, hytr, hy⟩
    exact ⟨hmem, by rw [hy]; simpa using hytr⟩

/-- The group keys of `div_df_calc.groupby(div_df_calc["Date"].dt.year)` are
exactly `years_to_include`: every year that survived the trim still has at
least one event in the 5-year window. -/
lemma calcYears_eq_trimmedYears (evs : List Event) (cy : Int) :
    sortedDedup ((calcList evs cy).filterMap yearOf) = trimmedYears evs cy := by
  refine List.eq_of_perm_of_sorted ?_ (sorted_sortedDedup _) (sorted_trimmedYears evs cy)
  refine (List.perm_ext_iff_of_nodup (nodup_sortedDedup _) (nodup_trimmedYears evs cy)).mpr ?_
  intro y
  rw [mem_sortedDedup, List.mem_filterMap]
  constructor
  · rintro ⟨e, hecalc, hy⟩
    obtain ⟨-, y', hy', hey'⟩ := mem_calcList.mp hecalc
    rw [hy] at hey'
    obtain rfl : y = y' := by injection hey'
    exact hy'
  · intro hytr
    obtain ⟨e, hep, hey⟩ := mem_distinctEvalYears.mp (trimmedYears_subset hytr)
    exact ⟨e, mem_calcList.mpr ⟨hep, y, hytr, hey⟩, hey⟩

/-- Each group's size is the full 5-year-window count of that year: filtering
to the trimmed years does not change the count of a trimmed year. -/
lemma yearCounts_eq_map (evs : List Event) (cy : Int) :
    yearCounts evs cy = (trimmedYears evs cy).map (evalCountYear evs cy) := by
  unfold yearCounts
  rw [calcYears_eq_trimmedYears]
  refine List.map_congr_left fun y hytr => ?_
  unfold calcList evalCountYear
  rw [List.countP_filter]
  refine List.countP_congr fun e _ => ?_
  simp only [Bool.and_eq_true, decide_eq_true_eq]
  constructor
  · rintro ⟨hy, -⟩
    exact hy
  · intro hy
    exact ⟨hy, by rw [hy]; simpa using hytr⟩

lemma dedup_eq_singleton_of_all_eq {l : List Nat} {c : Nat}
    (hne : l ≠ []) (hall : ∀ x ∈ l, x = c) : l.dedup = [c] := by
  induction l with
  | nil => exact absurd rfl hne
  | cons a t ih =>
    have hac : a = c := hall a (List.mem_cons_self a t)
    cases t with
    | nil => simp [hac]
    | cons b t' =>
      have hdt : (b :: t').dedup = [c] :=
        ih (List.cons_ne_nil _ _) fun x hx => hall x (List.mem_cons_of_mem _ hx)
      have hmem : a ∈ b :: t' := by
        rw [← List.mem_dedup, hdt, hac]
        exact List.mem_singleton.mpr rfl
      rw [List.dedup_cons_of_mem hmem, hdt]

lemma all_eq_of_dedup_eq_singleton {l : List Nat} {c : Nat}
    (h : l.dedup = [c]) : ∀ x ∈ l, x = c := fun _ hx =>
  List.mem_singleton.mp (h ▸ List.mem_dedup.mpr hx)

/-- The score only reads the event list through `evalPeriod`. -/
lemma yearlyDividend_congr_evalPeriod {evs₁ evs₂ : List Event} {cy : Int}
    (h : evalPeriod evs₁ cy = evalPeriod evs₂ cy) :
    yearlyDividend evs₁ cy = yearlyDividend evs₂ cy := by
  have h2 : distinctEvalYears evs₁ cy = distinctEvalYears evs₂ cy := by
    unfold distinctEvalYears
    rw [h]
  have h3 : trimmedYears evs₁ cy = trimmedYears evs₂ cy := by
    unfold trimmedYears
    rw [h2]
  have h4 : calcList evs₁ cy = calcList evs₂ cy := by
    unfold calcList
    rw [h, h3]
  have h5 : yearCounts evs₁ cy = yearCounts evs₂ cy := by
    unfold yearCounts
    rw [h4]
  unfold yearlyDividend
  rw [h, h2, h5]

/-! ## Concrete inputs used by witnesses and counterexamples -/

/-- A normalized event with the given parsed date (display fields empty). -/
def evYMD (y m d : Nat) : Event :=
  { date := some ⟨y, m, d⟩, exDateRaw := "", amount := "" }

/-- Four events in each of the years 2020..2024 (the spec's
`{2020:4, 2021:4, 2022:4, 2023:4, 2024:4}` example). -/
def historyUniform4 : List Event :=
  [evYMD 2020 1 1, evYMD 2020 4 1, evYMD 2020 7 1, evYMD 2020 10 1,
   evYMD 2021 1 1, evYMD 2021 4 1, evYMD 2021 7 1, evYMD 2021 10 1,
   evYMD 2022 1 1, evYMD 2022 4 1, evYMD 2022 7 1, evYMD 2022 10 1,
   evYMD 2023 1 1, evYMD 2023 4 1, evYMD 2023 7 1, evYMD 2023 10 1,
   evYMD 2024 1 1, evYMD 2024 4 1, evYMD 2024 7 1, evYMD 2024 10 1]

/-- A single-year history (one distinct year in the evaluation window). -/
def historyOneYear : List Event :=
  [evYMD 2023 6 1]

/-- 2 events in 2021, 3 in 2022, 5 in 2023: with `currentYear = 2024` the
trimmed set is `{2022}`, so the score is `3`; prepending one event of 2019
(or of 2200) changes the trim and makes the score Indeterminate. -/
def historyMixed : List Event :=
  [evYMD 2021 1 1, evYMD 2021 7 1,
   evYMD 2022 1 1, evYMD 2022 5 1, evYMD 2022 9 1,
   evYMD 2023 1 1, evYMD 2023 3 1, evYMD 2023 5 1, evYMD 2023 7 1, evYMD 2023 9 1]

/-! ## Claim theorems -/

/-- C1.  With at least 3 distinct years in the `eventYear >= currentYear - 5`
window, the score is the common per-year event count of the trimmed
(earliest- and latest-year-removed) distinct years when that count is
uniform, and Indeterminate (`none`) when it is not. -/
theorem yearlyDividend_trim_uniform (evs : List Event) (cy : Int)
    (hlen : 3 ≤ (distinctEvalYears evs cy).length) :
    (∀ c : Nat, (∀ y ∈ trimmedYears evs cy, evalCountYear evs cy y = c) →
        yearlyDividend evs cy = some c) ∧
      ((¬ ∃ c : Nat, ∀ y ∈ trimmedYears evs cy, evalCountYear evs cy y = c) →
        yearlyDividend evs cy = none) := by
  have hpne : evalPeriod evs cy ≠ [] := by
    intro hp
    rw [distinctEvalYears, hp] at hlen
    simp [sortedDedup] at hlen
  have htne : trimmedYears evs cy ≠ [] := by
    intro ht
    have : (trimmedYears evs cy).length = 0 := by rw [ht]; rfl
    rw [trimmedYears, List.length_dropLast, List.length_drop] at this
    omega
  have hyd : yearlyDividend evs cy =
      match (yearCounts evs cy).dedup with
      | [c] => some c
      | _ => none := by
    unfold yearlyDividend
    rw [if_neg hpne, if_neg (by omega), if_neg (by omega)]
  constructor
  · intro c hc
    have hcounts : (yearCounts evs cy).dedup = [c] := by
      refine dedup_eq_singleton_of_all_eq ?_ ?_
      · rw [yearCounts_eq_map]
        intro hmapnil
        exact htne (List.map_eq_nil_iff.mp hmapnil)
      · intro x hx
        rw [yearCounts_eq_map] at hx
        obtain ⟨y, hytr, rfl⟩ := List.mem_map.mp hx
        exact hc y hytr
    rw [hyd, hcounts]
  · intro hnc
    rw [hyd]
    cases hd : (yearCounts evs cy).dedup with
    | nil =>
      exfalso
      rw [List.dedup_eq_nil, yearCounts_eq_map, List.map_eq_nil_iff] at hd
      exact htne hd
    | cons c tl =>
      cases tl with
      | nil =>
        exfalso
        refine hnc ⟨c, fun y hytr => ?_⟩
        have hmem : evalCountYear evs cy y ∈ yearCounts evs cy := by
          rw [yearCounts_eq_map]
          exact List.mem_map.mpr ⟨y, hytr, rfl⟩
        exact all_eq_of_dedup_eq_singleton hd _ hmem
      | cons c' tl' => rfl

/-- C1 witness: the spec's concrete example `{2020:4, ..., 2024:4}` at
`currentYear = 2024` scores `4`. -/
theorem yearlyDividend_trim_uniform_witness :
    yearlyDividend historyUniform4 2024 = some 4 :=
  (yearlyDividend_trim_uniform historyUniform4 2024 (by decide)).1 4 (by decide)

/-- C2.  An empty evaluation window, or fewer than 3 distinct years in it,
always gives the Indeterminate score (`none`); the function is total, so no
error can be raised. -/
theorem yearlyDividend_insufficient_history (evs : List Event) (cy : Int)
    (h : evalPeriod evs cy = [] ∨ (distinctEvalYears evs cy).length < 3) :
    yearlyDividend evs cy = none := by
  unfold yearlyDividend
  by_cases h1 : evalPeriod evs cy = []
  · rw [if_pos h1]
  · rw [if_neg h1]
    have h3 : (distinctEvalYears evs cy).length < 3 := h.resolve_left h1
    by_cases h2 : (distinctEvalYears evs cy).length < 2
    · rw [if_pos h2]
    · rw [if_neg h2, if_pos h3]

/-- C2 witness: a single 2023 event at `currentYear = 2024` spans one
distinct year and scores Indeterminate. -/
theorem yearlyDividend_insufficient_history_witness :
    yearlyDividend historyOneYear 2024 = none :=
  yearlyDividend_insufficient_history historyOneYear 2024 (Or.inr (by decide))

/-- C10.  A known (non-Indeterminate) score is always at least 1: every
group key of the count step is the year of at least one window event. -/
theorem yearlyDividend_known_positive (evs : List Event) (cy : Int) (n : Nat)
    (h : yearlyDividend evs cy = some n) : 1 ≤ n := by
  unfold yearlyDividend at h
  by_cases h1 : evalPeriod evs cy = []
  · rw [if_pos h1] at h; exact absurd h (by simp)
  rw [if_neg h1] at h
  by_cases h2 : (distinctEvalYears evs cy).length < 2
  · rw [if_pos h2] at h; exact absurd h (by simp)
  rw [if_neg h2] at h
  by_cases h3 : (distinctEvalYears evs cy).length < 3
  · rw [if_pos h3] at h; exact absurd h (by simp)
  rw [if_neg h3] at h
  cases hd : (yearCounts evs cy).dedup with
  | nil => rw [hd] at h; exact absurd h (by simp)
  | cons c tl =>
    cases tl with
    | cons c' tl' => rw [hd] at h; exact absurd h (by simp)
    | nil =>
      rw [hd] at h
      obtain rfl : c = n := by injection h
      have hcmem : c ∈ yearCounts evs cy := by
        rw [← List.mem_dedup, hd]
        exact List.mem_singleton.mpr rfl
      unfold yearCounts at hcmem
      obtain ⟨y, hy, hcy⟩ := List.mem_map.mp hcmem
      rw [mem_sortedDedup, List.mem_filterMap] at hy
      obtain ⟨e, hecalc, hey⟩ := hy
      have hpos : 0 < (calcList evs cy).countP fun e => decide (yearOf e = some y) :=
        List.countP_pos_iff.mpr ⟨e, hecalc, by rw [hey]; exact decide_eq_true rfl⟩
      omega

/-- C10 witness: the uniform `{2020:4,...,2024:4}` history scores `some 4`
and `1 ≤ 4`. -/
theorem yearlyDividend_known_positive_witness :
    yearlyDividend historyUniform4 2024 = some 4 ∧ 1 ≤ 4 :=
  ⟨by decide, yearlyDividend_known_positive historyUniform4 2024 4 (by decide)⟩

/-- C7 counterexample.  The claim bounds the years that can affect the score
by `currentYear - 4 .. currentYear`; the code filters with
`eventYear >= currentYear - 5` and no upper bound.  At `currentYear = 2024`,
`historyMixed` scores `3`, yet adding one event of year `2019 < 2024 - 4`
(or of year `2200 > 2024`) changes the score to Indeterminate, so events
outside `2020..2024` do affect the score. -/
theorem score_affected_outside_claimed_window :
    yearOf (evYMD 2019 6 1) = some 2019 ∧ ¬ ((2024 : Int) - 4 ≤ 2019) ∧
      yearlyDividend (evYMD 2019 6 1 :: historyMixed) 2024 ≠ yearlyDividend historyMixed 2024 ∧
      yearOf (evYMD 2200 6 1) = some 2200 ∧ ¬ ((2200 : Int) ≤ 2024) ∧
      yearlyDividend (evYMD 2200 6 1 :: historyMixed) 2024 ≠ yearlyDividend historyMixed 2024 := by
  refine ⟨rfl, by decide, ?_, rfl, by decide, ?_⟩ <;> decide

/-- C7 amended.  The years able to affect the score are exactly those kept by
the code's evaluation filter, `eventYear >= currentYear - 5` (a trailing
six-calendar-year span for histories whose dates do not run past the current
year, with no upper bound enforced): the score of any history equals the
score of its `inEvalPred`-filtered restriction, so an event outside that
window can never change it. -/
theorem yearlyDividend_eval_window (evs : List Event) (cy : Int) :
    yearlyDividend (evs.filter (inEvalPred cy)) cy = yearlyDividend evs cy := by
  refine yearlyDividend_congr_evalPeriod ?_
  unfold evalPeriod
  rw [List.filter_filter]
  exact List.filter_congr fun e _ => Bool.and_self _

/-- C8.  The score depends only on the multiset of events: permuting the
input history never changes it (every stage either filters, counts, or
sorts-and-dedups). -/
theorem yearlyDividend_order_independent (evs₁ evs₂ : List Event) (cy : Int)
    (h : evs₁.Perm evs₂) : yearlyDividend evs₁ cy = yearlyDividend evs₂ cy :=
  yearlyDividend_perm h cy

/-- C8 witness: swapping the two events of a two-event history keeps the
score. -/
theorem yearlyDividend_order_independent_witness :
    yearlyDividend [evYMD 2022 1 1, evYMD 2023 1 1] 2024 =
      yearlyDividend [evYMD 2023 1 1, evYMD 2022 1 1] 2024 :=
  yearlyDividend_order_independent _ _ 2024 (List.Perm.swap _ _ _)

/-- C9.  No deduplication: every occurrence of an in-window event adds 1 to
its year's count, whether or not an event with the same date is already
present. -/
theorem duplicate_dates_count_separately (evs : List Event) (cy : Int)
    (e : Event) (y : Nat) (hy : yearOf e = some y) (hw : inEvalPred cy e = true) :
    evalCountYear (e :: evs) cy y = evalCountYear evs cy y + 1 := by
  unfold evalCountYear evalPeriod
  rw [List.filter_cons_of_pos hw, List.countP_cons, if_pos (by rw [hy]; exact decide_eq_true rfl)]

/-- C9 witness: a year holding the same date twice counts 2, not 1. -/
theorem duplicate_dates_count_separately_witness :
    evalCountYear [evYMD 2023 3 15, evYMD 2023 3 15] 2024 2023 = 2 := by
  rw [duplicate_dates_count_separately [evYMD 2023 3 15] 2024 (evYMD 2023 3 15) 2023 rfl
    (by decide)]
  decide

/-- A raw row whose date parses but lies before the 10-year rendering window
of 2024. -/
def oldRow : RawRow :=
  { exDate := "06/01/2000", amount := "1.0" }

/-- A raw row with a parseable recent date. -/
def rowGood : RawRow :=
  { exDate := "01/15/2023", amount := "0.25" }

/-- A raw row whose date cell does not parse under `%m/%d/%Y`. -/
def rowBad : RawRow :=
  { exDate := "banana", amount := "0.25" }

/-- C3 counterexample.  A nonempty table whose only (parseable) event falls
before `currentYear - 10` has an empty rendering window, yet its tooltip is
the constant markdown header (`tooltip_md` is initialized to the header
before the rows are appended), not the empty string the claim demands. -/
theorem tooltip_empty_window_not_empty_string :
    tooltipList (sortEvents (normalize [oldRow])) 2024 = [] ∧
      (processSymbolBody ⟨true, [oldRow]⟩ 2024).2 = tooltipHeader ∧
      (processSymbolBody ⟨true, [oldRow]⟩ 2024).2 ≠ "" := by
  refine ⟨by decide, by decide, by decide⟩

/-- C3 amended.  For a symbol that reaches per-event processing (nonempty
table with the date column), an empty `eventYear >= currentYear - 10` window
renders the bare header with zero data rows — not the empty string; the
empty rendering arises only from the earlier guards (missing file, empty
table, missing column, exception). -/
theorem tooltip_empty_window_header_only (rows : List RawRow) (cy : Int)
    (hne : rows ≠ []) (hempty : tooltipList (sortEvents (normalize rows)) cy = []) :
    (processSymbolBody ⟨true, rows⟩ cy).2 = tooltipHeader := by
  have h1 : processSymbolBody ⟨true, rows⟩ cy =
      (match yearlyDividend (sortEvents (normalize rows)) cy with
        | some n => toString n
        | none => "-",
       renderTooltip (tooltipList (sortEvents (normalize rows)) cy)) := by
    unfold processSymbolBody
    rw [if_neg (by simp [hne])]
  rw [h1, hempty]
  show tooltipHeader ++ String.join ([].map entryLine) = tooltipHeader
  rw [List.map_nil]
  exact String.append_empty _

/-- C3 amended witness: the old-event table renders exactly the header. -/
theorem tooltip_empty_window_header_only_witness :
    (processSymbolBody ⟨true, [oldRow]⟩ 2024).2 = tooltipHeader :=
  tooltip_empty_window_header_only [oldRow] 2024 (by decide) (by decide)

/-- C4.  The batch produces one output per symbol, and replacing any one
symbol's input by a raised exception (a corrupt read) changes only that
symbol's output, which becomes the `("-", "")` Indeterminate/empty-rendering
fallback: a single corrupt input never fails the batch. -/
theorem loadData_isolates_corrupt_symbol (inputs : List SymbolInput) (cy : Int)
    (i : Nat) (msg : String) :
    (loadData inputs cy).length = inputs.length ∧
      loadData (inputs.set i (some (Except.error msg))) cy =
        (loadData inputs cy).set i ("-", "") := by
  constructor
  · simp [loadData]
  · unfold loadData
    rw [List.map_set]
    rfl

lemma mem_normalize_date {rows : List RawRow} {e : Event} (h : e ∈ normalize rows) :
    e.date = parseMMDDYYYY e.exDateRaw := by
  obtain ⟨r, -, rfl⟩ := List.mem_map.mp h
  rfl

lemma isSome_of_inRenderPred {cy : Int} {e : Event} (h : inRenderPred cy e = true) :
    e.date.isSome = true := by
  unfold inRenderPred at h
  cases hd : e.date with
  | none => rw [hd] at h; exact absurd h (by simp)
  | some d => exact rfl

lemma isSome_of_inEvalPred {cy : Int} {e : Event} (h : inEvalPred cy e = true) :
    e.date.isSome = true := by
  unfold inEvalPred at h
  cases hd : e.date with
  | none => rw [hd] at h; exact absurd h (by simp)
  | some d => exact rfl

lemma normalize_filter_isSome (rows : List RawRow) :
    (normalize rows).filter (fun e => e.date.isSome) =
      normalize (rows.filter fun r => (parseMMDDYYYY r.exDate).isSome) := by
  unfold normalize
  rw [List.filter_map]
  rfl

/-- Dropping the `NaT` rows does not change the score: the evaluation filter
already rejects them. -/
lemma yearlyDividend_filter_isSome (evs : List Event) (cy : Int) :
    yearlyDividend (evs.filter fun e => e.date.isSome) cy = yearlyDividend evs cy := by
  refine yearlyDividend_congr_evalPeriod ?_
  unfold evalPeriod
  rw [List.filter_filter]
  refine List.filter_congr fun e _ => ?_
  unfold inEvalPred
  cases hd : e.date with
  | none => simp
  | some d => simp

/-- C5.  A row whose date cell fails `%m/%d/%Y` parsing contributes neither
to the rendering window nor to any per-year count: every event of the
rendering list and of the evaluation window has a parseable raw date, and
the score is unchanged when the unparsable rows are deleted up front. -/
theorem unparsable_rows_excluded (rows : List RawRow) (cy : Int) :
    (∀ e ∈ tooltipList (sortEvents (normalize rows)) cy,
        (parseMMDDYYYY e.exDateRaw).isSome = true) ∧
      (∀ e ∈ evalPeriod (sortEvents (normalize rows)) cy,
        (parseMMDDYYYY e.exDateRaw).isSome = true) ∧
      yearlyDividend (sortEvents (normalize rows)) cy =
        yearlyDividend (sortEvents (normalize
          (rows.filter fun r => (parseMMDDYYYY r.exDate).isSome))) cy := by
  refine ⟨?_, ?_, ?_⟩
  · intro e he
    rw [tooltipList, List.mem_filter] at he
    obtain ⟨hmem, hpred⟩ := he
    have hd := mem_normalize_date ((sortEvents_perm (normalize rows)).mem_iff.mp hmem)
    rw [← hd]
    exact isSome_of_inRenderPred hpred
  · intro e he
    rw [evalPeriod, List.mem_filter] at he
    obtain ⟨hmem, hpred⟩ := he
    have hd := mem_normalize_date ((sortEvents_perm (normalize rows)).mem_iff.mp hmem)
    rw [← hd]
    exact isSome_of_inEvalPred hpred
  · calc yearlyDividend (sortEvents (normalize rows)) cy
        = yearlyDividend (normalize rows) cy :=
          yearlyDividend_perm (sortEvents_perm _) cy
      _ = yearlyDividend ((normalize rows).filter fun e => e.date.isSome) cy :=
          (yearlyDividend_filter_isSome _ cy).symm
      _ = yearlyDividend (normalize (rows.filter fun r => (parseMMDDYYYY r.exDate).isSome)) cy := by
          rw [normalize_filter_isSome]
      _ = yearlyDividend (sortEvents (normalize
            (rows.filter fun r => (parseMMDDYYYY r.exDate).isSome))) cy :=
          (yearlyDividend_perm (sortEvents_perm _) cy).symm

/-- C5 witness: in the table `[rowGood, rowBad]` every rendered event has a
parseable raw date (here the `01/15/2023` one). -/
theorem unparsable_rows_excluded_witness :
    (parseMMDDYYYY (Event.mk (some ⟨2023, 1, 15⟩) "01/15/2023" "0.25").exDateRaw).isSome = true :=
  (unparsable_rows_excluded [rowGood, rowBad] 2024).1
    (Event.mk (some ⟨2023, 1, 15⟩) "01/15/2023" "0.25") (by decide)

/-- C6.  The rendering list holds exactly the events with
`eventYear >= currentYear - 10` (with multiplicity), in most-recent-first
order (`eventLe` is descending date order), and an event exactly at the
boundary year `currentYear - 10` is included.  The tooltip body is the
`entryLine` image of this list. -/
theorem tooltip_window_and_order (evs : List Event) (cy : Int) :
    (∀ e : Event, (tooltipList (sortEvents evs) cy).count e =
        if inRenderPred cy e then evs.count e else 0) ∧
      List.Pairwise eventLe (tooltipList (sortEvents evs) cy) ∧
      (∀ e ∈ evs, ∀ d : Date, e.date = some d → (d.year : Int) = cy - 10 →
        e ∈ tooltipList (sortEvents evs) cy) := by
  refine ⟨?_, ?_, ?_⟩
  · intro e
    by_cases hp : inRenderPred cy e = true
    · rw [if_pos hp, tooltipList, List.count_filter hp]
      exact (sortEvents_perm evs).count_eq e
    · rw [if_neg hp, List.count_eq_zero]
      intro hmem
      exact hp (List.mem_filter.mp hmem).2
  · exact List.Pairwise.sublist (List.filter_sublist _)
      (List.sorted_insertionSort eventLe evs)
  · intro e hmem d hd hyear
    refine List.mem_filter.mpr ⟨(sortEvents_perm evs).mem_iff.mpr hmem, ?_⟩
    unfold inRenderPred
    rw [hd]
    exact decide_eq_true (le_of_eq hyear.symm)

/-- C6 witness: an event of year exactly `currentYear - 10` (2014 at 2024)
is in the rendering list. -/
theorem tooltip_window_and_order_witness :
    evYMD 2014 3 1 ∈ tooltipList (sortEvents [evYMD 2014 3 1]) 2024 :=
  (tooltip_window_and_order [evYMD 2014 3 1] 2024).2.2 (evYMD 2014 3 1)
    (by decide) ⟨2014, 3, 1⟩ rfl (by decide)

end Dividend
